import Mathlib

/-!
# `internal/graphql/client.go`: the authenticated GraphQL client factory

A shallow embedding of `NewClient` and of the library calls it makes.

* Calls on the process and on the network become entries of an effect trace
  (`Effect`), collected by the `Run` monad together with the returned value;
  a run whose value is `none` is one in which the process was terminated.
* The environment, the exit hook of the Actions toolkit and the remote end of
  the GraphQL query are inputs of the model (`Action`, `Network`).
* `fmt.Sprintf`, `time.Time.Format` and the query renderer of the GraphQL
  library are modelled on the fragment `NewClient` uses.
-/

set_option linter.dupNamespace false

namespace graphql

/-! ## `fmt`: the verbs used by `NewClient` -/

/-- Go's `error` interface, reduced to the text its `Error()` method returns. -/
structure error where
  Error : String

/-- An operand of a formatting call. -/
inductive Arg where
  | str (s : String)
  | int (i : Int)
  | err (e : error)

/-- Decimal rendering of an integer, as the verb `%d` prints it. -/
def fmtInt (i : Int) : List Char :=
  if i < 0 then '-' :: (Nat.toDigits 10 i.natAbs) else Nat.toDigits 10 i.natAbs

/-- Rendering of one operand under the verb `v` (`%s`, `%d`, `%v`); a verb that
does not fit the operand is reported the way `fmt` does, as `%!v(type=value)`. -/
def Arg.render (v : Char) : Arg → List Char
  | .str s => if v = 's' ∨ v = 'v' then s.data
              else '%' :: '!' :: v :: ("(string=".data ++ s.data ++ [')'])
  | .int i => if v = 'd' ∨ v = 'v' then fmtInt i
              else '%' :: '!' :: v :: ("(int=".data ++ fmtInt i ++ [')'])
  | .err e => if v = 's' ∨ v = 'v' then e.Error.data
              else '%' :: '!' :: v :: ("(error=".data ++ e.Error.data ++ [')'])

/-- The scan of the format: text is copied, `%%` is a percent sign, and a verb
consumes the next operand (`%!v(MISSING)` when none is left). -/
def doPrintf : List Char → List Arg → List Char
  | [], _ => []
  | [c], _ => if c = '%' then "%!(NOVERB)".data else [c]
  | c :: v :: rest, args =>
    if c = '%' then
      if v = '%' then '%' :: doPrintf rest args
      else
        match args with
        | [] => '%' :: '!' :: v :: ("(MISSING)".data ++ doPrintf rest [])
        | a :: args => a.render v ++ doPrintf rest args
    else c :: doPrintf (v :: rest) args

/-- Model of `fmt.Sprintf(format, args...)`. -/
def Sprintf (format : String) (args : List Arg) : String :=
  String.mk (doPrintf format.data args)

/-! ## `time`: instants and the RFC 3339 layout -/

/-- A `time.Time`: an instant, in seconds since 1970-01-01T00:00:00Z, and the
offset east of UTC, in seconds, of the location it is shown in. -/
structure Time where
  unix : Int
  offset : Int

/-- The layouts of package `time` that the program uses. -/
inductive Layout where
  | RFC3339

/-- Calendar date `(year, month, day)` of a day number counted from 1970-01-01
in the proleptic Gregorian calendar. -/
def civilFromDays (days : Int) : Int × Int × Int :=
  let z := days + 719468
  let era := z / 146097
  let doe := z - era * 146097
  let yoe := (doe - doe / 1460 + doe / 36524 - doe / 146096) / 365
  let doy := doe - (365 * yoe + yoe / 4 - yoe / 100)
  let mp := (5 * doy + 2) / 153
  let d := doy - (153 * mp + 2) / 5 + 1
  let m := if mp < 10 then mp + 3 else mp - 9
  let y := yoe + era * 400
  (if m ≤ 2 then y + 1 else y, m, d)

/-- Model of `appendInt` of package `time`: decimal digits of `x`, padded with
zeros to `width`, behind a minus sign when `x` is negative. -/
def appendInt (x : Int) (width : Nat) : List Char :=
  let digits := Nat.toDigits 10 x.natAbs
  let padded := List.replicate (width - digits.length) '0' ++ digits
  if x < 0 then '-' :: padded else padded

/-- Model of `appendFormatRFC3339` without fractional seconds: the layout
`2006-01-02T15:04:05Z07:00`. -/
def Time.appendFormatRFC3339 (t : Time) : List Char :=
  let abs := t.unix + t.offset
  let (year, month, day) := civilFromDays (abs / 86400)
  let sec := abs % 86400
  let date := appendInt year 4 ++ '-' :: appendInt month 2 ++ '-' :: appendInt day 2
  let clock := appendInt (sec / 3600) 2 ++ ':' :: appendInt (sec % 3600 / 60) 2
    ++ ':' :: appendInt (sec % 60) 2
  let zone :=
    if t.offset = 0 then ['Z']
    else
      let zone := Int.tdiv t.offset 60
      (if zone < 0 then '-' else '+') ::
        (appendInt (Int.natAbs zone / 60 : Nat) 2 ++ ':' :: appendInt (Int.natAbs zone % 60 : Nat) 2)
  date ++ 'T' :: clock ++ zone

/-- Model of `Time.Format(layout)`. -/
def Time.Format (t : Time) : Layout → String
  | .RFC3339 => String.mk t.appendFormatRFC3339

/-! ## The collaborators: Actions toolkit, OAuth2 transport, GraphQL client -/

/-- A `context.Context`; `NewClient` only hands it on to the query. -/
structure Context where
  name : String

/-- The `githubactions.Action` as `NewClient` sees it: the environment lookup
it was configured with, and whether the exit hook that `Fatalf` calls after
logging terminates the process (`os.Exit`) or returns (a replaced hook). -/
structure Action where
  getenv : String → String
  exits : Bool

/-- Modelled from the spec: `internal.NewTransport` is not among the sources.
The base transport is owned by the Actions context given to it and decorates
requests with process-specific headers such as the user agent. -/
structure BaseTransport where
  action : Action

/-- Modelled from the spec: the constructor of the base transport, see
`BaseTransport`. -/
def NewTransport (action : Action) : BaseTransport :=
  { action := action }

/-- An `oauth2.Token`. -/
structure Token where
  AccessToken : String

/-- An `oauth2.TokenSource`. -/
structure TokenSource where
  Token : Token

/-- Model of `oauth2.StaticTokenSource`: the source that always returns `t`. -/
def StaticTokenSource (t : Token) : TokenSource :=
  { Token := t }

/-- An `oauth2.Transport`. -/
structure Transport where
  Source : TokenSource
  Base : BaseTransport

/-- The `Authorization` header an `oauth2.Transport` sets on a request. -/
def Transport.authorization (t : Transport) : String :=
  "Bearer " ++ t.Source.Token.AccessToken

/-- An `http.Client`. -/
structure HttpClient where
  Transport : Transport

/-- A `githubv4.Client`: the endpoint and the HTTP client it sends through. -/
structure V4Client where
  url : String
  httpClient : HttpClient

/-- Model of `githubv4.NewClient`. -/
def githubv4NewClient (httpClient : HttpClient) : V4Client :=
  { url := "https://api.github.com/graphql", httpClient := httpClient }

mutual
/-- The part of a Go type the query renderer looks at: a scalar, or a struct
with named fields. -/
inductive GoType where
  | scalar
  | struct (fields : GoFields)
/-- The fields of a struct type, in declaration order. -/
inductive GoFields where
  | nil
  | cons (name : String) (type : GoType) (rest : GoFields)
end

/-- Field name in lower camel case, for a name with one leading capital. -/
def lowerCamel (name : String) : String :=
  match name.data with
  | [] => ""
  | c :: cs => String.mk (c.toLower :: cs)

mutual
/-- Model of `writeQuery` of the GraphQL library: the selection set of a type. -/
def writeQuery : GoType → String
  | .scalar => ""
  | .struct fields => "\x7b" ++ writeFields true fields ++ "\x7d"
/-- The comma-separated fields of a selection set. -/
def writeFields (first : Bool) : GoFields → String
  | .nil => ""
  | .cons name type rest =>
    (if first then "" else ",") ++ lowerCamel name ++ writeQuery type ++ writeFields false rest
end

/-- Model of `constructQuery`; `NewClient` passes no vars, and a query with
vars is prefixed with their declaration. -/
def constructQuery (v : GoType) (vars : Option (List (String × String))) : String :=
  match vars with
  | none | some [] => writeQuery v
  | some (x :: xs) =>
    "query(" ++ String.intercalate "" ((x :: xs).map fun p => "$" ++ p.1 ++ ":" ++ p.2) ++ ")"
      ++ writeQuery v

/-- The value of `rl.RateLimit` after a successful query. -/
structure RateLimit where
  Cost : Int
  Limit : Int
  Remaining : Int
  ResetAt : Time

/-- The anonymous struct `rl` of `NewClient`, as filled by a successful query. -/
structure RL where
  RateLimit : RateLimit

/-- The type of `rl`, as the query renderer sees it. -/
def rlType : GoType :=
  .struct (.cons "RateLimit"
    (.struct (.cons "Cost" .scalar (.cons "Limit" .scalar
      (.cons "Remaining" .scalar (.cons "ResetAt" .scalar .nil))))) .nil)

/-- One GraphQL round trip as it leaves the client. -/
structure Request where
  client : V4Client
  ctx : Context
  query : String
  vars : Option (List (String × String))

/-- The `Authorization` header of a request. -/
def Request.authorization (r : Request) : String :=
  r.client.httpClient.Transport.authorization

/-- The remote end: what the round trip of a request yields. -/
def Network : Type := Request → Except error RL

/-! ## Effects -/

/-- What a run does to the outside world. -/
inductive Effect where
  | getenv (key : String)
  | fatal (msg : String)
  | debug (msg : String)
  | query (req : Request)

/-- A run: the effects in the order they happened, and the value returned, or
`none` when the process was terminated before the function returned. -/
structure Run (α : Type) where
  trace : List Effect
  value : Option α

/-- Sequencing of runs: the second part only happens when the first returned. -/
def Run.bind {α β : Type} (m : Run α) (f : α → Run β) : Run β :=
  match m.value with
  | none => { trace := m.trace, value := none }
  | some a => { trace := m.trace ++ (f a).trace, value := (f a).value }

instance : Monad Run where
  pure a := { trace := [], value := some a }
  bind := Run.bind

/-- Model of `Action.Getenv`. -/
def Action.Getenv (action : Action) (key : String) : Run String :=
  { trace := [.getenv key], value := some (action.getenv key) }

/-- Model of `Action.Debugf`. -/
def Action.Debugf (_action : Action) (format : String) (args : List Arg) : Run Unit :=
  { trace := [.debug (Sprintf format args)], value := some () }

/-- Model of `Action.Fatalf`: the message is logged, then the exit hook runs. -/
def Action.Fatalf (action : Action) (format : String) (args : List Arg) : Run Unit :=
  { trace := [.fatal (Sprintf format args)], value := if action.exits then none else some () }

/-- Model of `Client.Query(ctx, q, vars)` for a destination of type `q`. -/
def V4Client.Query (c : V4Client) (net : Network) (ctx : Context) (q : GoType)
    (vars : Option (List (String × String))) : Run (Except error RL) :=
  let req : Request :=
    { client := c, ctx := ctx, query := constructQuery q vars, vars := vars }
  { trace := [.query req], value := some (net req) }

/-! ## `Client` and `NewClient` -/


/-- The `Client` of package `graphql`: the embedded `*githubv4.Client` and the
Actions context. -/
structure Client where
  Client : V4Client
  action : Action

/-- The function `NewClient`; `none` is the nil client. -/
def NewClient (net : Network) (ctx : Context) (action : Action) (tokenVar : String) :
    Run (Option Client) := do
  let token ← action.Getenv tokenVar
  if token = "" then
    action.Fatalf "%s is not set." [.str tokenVar]
    return none
  let httpClient : HttpClient :=
    { Transport :=
        { Source := StaticTokenSource { AccessToken := token },
          Base := NewTransport action } }
  let c := githubv4NewClient httpClient
  match ← c.Query net ctx rlType none with
  | .error err =>
    action.Fatalf "Failed to query rate limit: %s." [.err err]
    return none
  | .ok rl =>
    action.Debugf "Rate limit remaining: %d, reset at: %s."
      [.int rl.RateLimit.Remaining, .str (rl.RateLimit.ResetAt.Format .RFC3339)]
    return some { Client := c, action := action }


/-! ## Observations on a trace -/

/-- The log entries of a trace, both levels, in order. -/
def logs : List Effect → List Effect
  | [] => []
  | .fatal msg :: es => .fatal msg :: logs es
  | .debug msg :: es => .debug msg :: logs es
  | _ :: es => logs es

/-- The messages logged at fatal level. -/
def fatals : List Effect → List String
  | [] => []
  | .fatal msg :: es => msg :: fatals es
  | _ :: es => fatals es

/-- The messages logged at debug level. -/
def debugs : List Effect → List String
  | [] => []
  | .debug msg :: es => msg :: debugs es
  | _ :: es => debugs es

/-- The requests sent. -/
def queries : List Effect → List Request
  | [] => []
  | .query req :: es => req :: queries es
  | _ :: es => queries es

/-- The names of the environment variables looked up. -/
def getenvs : List Effect → List String
  | [] => []
  | .getenv key :: es => key :: getenvs es
  | _ :: es => getenvs es

/-- The request that `NewClient` sends for a token: the client built on lines
44-52, the query of line 65. It serves to state the lemmas on the runs. -/
def probe (ctx : Context) (action : Action) (token : String) : Request :=
  { client := githubv4NewClient { Transport :=
      { Source := StaticTokenSource { AccessToken := token },
        Base := NewTransport action } },
    ctx := ctx, query := constructQuery rlType none, vars := none }

/-! ## Example inputs -/

/-- An Actions context whose environment holds `GITHUB_TOKEN` and nothing else. -/
def tokenAction : Action :=
  { getenv := fun key => if key = "GITHUB_TOKEN" then "ghp_example123" else "", exits := true }

/-- An Actions context with an empty environment. -/
def bareAction : Action :=
  { getenv := fun _ => "", exits := true }

/-- An Actions context with an empty environment whose exit hook returns. -/
def stubbedAction : Action :=
  { getenv := fun _ => "", exits := false }

/-- The context of the examples. -/
def background : Context :=
  { name := "background" }

/-- A remote end that times out. -/
def timeoutNet : Network :=
  fun _ => .error { Error := "context deadline exceeded" }

/-- A remote end that reports 4999 remaining calls and a reset at
2024-01-15 11:00:00 UTC, which is 1705316400 seconds after the epoch. -/
def okNet : Network :=
  fun _ => .ok { RateLimit :=
    { Cost := 1, Limit := 5000, Remaining := 4999, ResetAt := { unix := 1705316400, offset := 0 } } }

/-! ## Formatting lemmas -/

theorem fmtInt_eq (i : Int) : String.mk (fmtInt i) = toString i := by
  cases i with
  | ofNat n =>
    show String.mk (fmtInt (Int.ofNat n)) = toString n
    have h : ¬ ((n : Int) < 0) := by omega
    simp [fmtInt, toString, Nat.repr, List.asString, h]
  | negSucc n =>
    show String.mk (fmtInt (Int.negSucc n)) = "-" ++ toString (n + 1)
    simp [fmtInt, toString, Nat.repr, List.asString, Int.negSucc_lt_zero]
    rfl

theorem Sprintf_not_set (v : String) :
    Sprintf "%s is not set." [.str v] = v ++ " is not set." := rfl

theorem Sprintf_failed (e : error) :
    Sprintf "Failed to query rate limit: %s." [.err e]
      = "Failed to query rate limit: " ++ e.Error ++ "." := rfl

theorem Sprintf_remaining (r : Int) (s : String) :
    Sprintf "Rate limit remaining: %d, reset at: %s." [.int r, .str s]
      = "Rate limit remaining: " ++ toString r ++ ", reset at: " ++ s ++ "." := by
  rw [← fmtInt_eq]
  apply String.ext
  show 'R' :: _ = _
  simp [String.data_append]
  rfl

/-! ## The three runs of `NewClient` -/

theorem run_missing (net : Network) (ctx : Context) (action : Action) (tokenVar : String)
    (h : action.getenv tokenVar = "") :
    NewClient net ctx action tokenVar =
      { trace := [.getenv tokenVar, .fatal (tokenVar ++ " is not set.")],
        value := if action.exits then none else some none } := by
  rw [← Sprintf_not_set]
  cases hx : action.exits <;>
    simp [NewClient, bind, Run.bind, Action.Getenv, Action.Fatalf, h, hx, pure]

theorem run_query_failed (net : Network) (ctx : Context) (action : Action) (tokenVar : String)
    (err : error) (h : action.getenv tokenVar ≠ "")
    (herr : net (probe ctx action (action.getenv tokenVar)) = .error err) :
    NewClient net ctx action tokenVar =
      { trace := [.getenv tokenVar, .query (probe ctx action (action.getenv tokenVar)),
          .fatal ("Failed to query rate limit: " ++ err.Error ++ ".")],
        value := if action.exits then none else some none } := by
  rw [← Sprintf_failed]
  unfold probe at herr ⊢
  cases hx : action.exits <;>
    simp [NewClient, bind, Run.bind, Action.Getenv, Action.Fatalf, V4Client.Query, h, hx, pure,
      herr]

theorem run_ready (net : Network) (ctx : Context) (action : Action) (tokenVar : String)
    (rl : RL) (h : action.getenv tokenVar ≠ "")
    (hok : net (probe ctx action (action.getenv tokenVar)) = .ok rl) :
    NewClient net ctx action tokenVar =
      { trace := [.getenv tokenVar, .query (probe ctx action (action.getenv tokenVar)),
          .debug ("Rate limit remaining: " ++ toString rl.RateLimit.Remaining ++ ", reset at: "
            ++ rl.RateLimit.ResetAt.Format .RFC3339 ++ ".")],
        value := some (some
          { Client := (probe ctx action (action.getenv tokenVar)).client, action := action }) } := by
  rw [← Sprintf_remaining]
  unfold probe at hok ⊢
  simp [NewClient, bind, Run.bind, Action.Getenv, Action.Debugf, V4Client.Query, h, pure, hok]

/-- Every run of `NewClient` is one of the three above. -/
theorem run_cases (net : Network) (ctx : Context) (action : Action) (tokenVar : String) :
    (action.getenv tokenVar = "" ∧
      NewClient net ctx action tokenVar =
        { trace := [.getenv tokenVar, .fatal (tokenVar ++ " is not set.")],
          value := if action.exits then none else some none }) ∨
    (action.getenv tokenVar ≠ "" ∧ ∃ err,
      net (probe ctx action (action.getenv tokenVar)) = .error err ∧
      NewClient net ctx action tokenVar =
        { trace := [.getenv tokenVar, .query (probe ctx action (action.getenv tokenVar)),
            .fatal ("Failed to query rate limit: " ++ err.Error ++ ".")],
          value := if action.exits then none else some none }) ∨
    (action.getenv tokenVar ≠ "" ∧ ∃ rl,
      net (probe ctx action (action.getenv tokenVar)) = .ok rl ∧
      NewClient net ctx action tokenVar =
        { trace := [.getenv tokenVar, .query (probe ctx action (action.getenv tokenVar)),
            .debug ("Rate limit remaining: " ++ toString rl.RateLimit.Remaining
              ++ ", reset at: " ++ rl.RateLimit.ResetAt.Format .RFC3339 ++ ".")],
          value := some (some
            { Client := (probe ctx action (action.getenv tokenVar)).client,
              action := action }) }) := by
  by_cases h : action.getenv tokenVar = ""
  · exact Or.inl ⟨h, run_missing net ctx action tokenVar h⟩
  · cases hn : net (probe ctx action (action.getenv tokenVar)) with
    | error err => exact Or.inr (Or.inl ⟨h, err, rfl, run_query_failed net ctx action tokenVar err h hn⟩)
    | ok rl => exact Or.inr (Or.inr ⟨h, rl, rfl, run_ready net ctx action tokenVar rl h hn⟩)

/-- An exit or a nil result is not a client. -/
theorem no_client_of_exit (b : Bool) (c : Client) :
    (if b then (none : Option (Option Client)) else some none) ≠ some (some c) := by
  cases b <;> simp

/-! ## The claims -/

/-- C1: when the variable named `tokenVar` is unset or empty, the run logs
exactly one entry, at fatal level, with the message `tokenVar` followed by
` is not set.`, and no client comes out of it: the process is terminated, or
nil is returned when the exit hook returns. -/
theorem NewClient_missing_token (net : Network) (ctx : Context) (action : Action)
    (tokenVar : String) (h : action.getenv tokenVar = "") :
    logs (NewClient net ctx action tokenVar).trace = [.fatal (tokenVar ++ " is not set.")] ∧
    fatals (NewClient net ctx action tokenVar).trace = [tokenVar ++ " is not set."] ∧
    (NewClient net ctx action tokenVar).value = (if action.exits then none else some none) ∧
    ∀ c, (NewClient net ctx action tokenVar).value ≠ some (some c) := by
  rw [run_missing net ctx action tokenVar h]
  exact ⟨rfl, rfl, rfl, no_client_of_exit action.exits⟩

theorem NewClient_missing_token_witness :
    bareAction.getenv "GITHUB_TOKEN" = "" ∧
    logs (NewClient okNet background bareAction "GITHUB_TOKEN").trace
      = [.fatal "GITHUB_TOKEN is not set."] ∧
    fatals (NewClient okNet background bareAction "GITHUB_TOKEN").trace
      = ["GITHUB_TOKEN is not set."] ∧
    (NewClient okNet background bareAction "GITHUB_TOKEN").value = none ∧
    ∀ c, (NewClient okNet background bareAction "GITHUB_TOKEN").value ≠ some (some c) :=
  ⟨rfl, NewClient_missing_token okNet background bareAction "GITHUB_TOKEN" rfl⟩

/-- C2: with a non-empty token, the run sends the validation query built from
that token, and when the query returns the error `err` the run logs exactly one
entry, at fatal level, with the message `Failed to query rate limit: ` followed
by the text of `err` and a full stop, logs nothing at debug level, and no
client comes out of it: the process is terminated, or nil is returned when the
exit hook returns. -/
theorem NewClient_query_error (net : Network) (ctx : Context) (action : Action)
    (tokenVar : String) (err : error)
    (h : action.getenv tokenVar ≠ "")
    (herr : net (probe ctx action (action.getenv tokenVar)) = .error err) :
    queries (NewClient net ctx action tokenVar).trace
      = [probe ctx action (action.getenv tokenVar)] ∧
    logs (NewClient net ctx action tokenVar).trace
      = [.fatal ("Failed to query rate limit: " ++ err.Error ++ ".")] ∧
    fatals (NewClient net ctx action tokenVar).trace
      = ["Failed to query rate limit: " ++ err.Error ++ "."] ∧
    debugs (NewClient net ctx action tokenVar).trace = [] ∧
    (NewClient net ctx action tokenVar).value = (if action.exits then none else some none) ∧
    ∀ c, (NewClient net ctx action tokenVar).value ≠ some (some c) := by
  rw [run_query_failed net ctx action tokenVar err h herr]
  exact ⟨rfl, rfl, rfl, rfl, rfl, no_client_of_exit action.exits⟩

theorem NewClient_query_error_witness :
    tokenAction.getenv "GITHUB_TOKEN" ≠ "" ∧
    timeoutNet (probe background tokenAction (tokenAction.getenv "GITHUB_TOKEN"))
      = .error { Error := "context deadline exceeded" } ∧
    queries (NewClient timeoutNet background tokenAction "GITHUB_TOKEN").trace
      = [probe background tokenAction "ghp_example123"] ∧
    logs (NewClient timeoutNet background tokenAction "GITHUB_TOKEN").trace
      = [.fatal "Failed to query rate limit: context deadline exceeded."] ∧
    fatals (NewClient timeoutNet background tokenAction "GITHUB_TOKEN").trace
      = ["Failed to query rate limit: context deadline exceeded."] ∧
    debugs (NewClient timeoutNet background tokenAction "GITHUB_TOKEN").trace = [] ∧
    (NewClient timeoutNet background tokenAction "GITHUB_TOKEN").value = none ∧
    ∀ c, (NewClient timeoutNet background tokenAction "GITHUB_TOKEN").value ≠ some (some c) :=
  ⟨by decide, rfl,
    NewClient_query_error timeoutNet background tokenAction "GITHUB_TOKEN"
      { Error := "context deadline exceeded" } (by decide) rfl⟩

/-- C3: with a non-empty token, the run sends the validation query built from
that token, and when the query succeeds with the response `rl` the run returns
a client and logs exactly one entry, at debug level, with the message
`Rate limit remaining: <r>, reset at: <t>.`, where `<r>` is the remaining quota
in decimal and `<t>` the reset time in the RFC 3339 layout; nothing is logged
at fatal level. For 4999 remaining and a reset at 2024-01-15 11:00:00 UTC
(1705316400 seconds after the epoch) the message is
`Rate limit remaining: 4999, reset at: 2024-01-15T11:00:00Z.`. -/
theorem NewClient_ready (net : Network) (ctx : Context) (action : Action)
    (tokenVar : String) (rl : RL)
    (h : action.getenv tokenVar ≠ "")
    (hok : net (probe ctx action (action.getenv tokenVar)) = .ok rl) :
    queries (NewClient net ctx action tokenVar).trace
      = [probe ctx action (action.getenv tokenVar)] ∧
    (∃ c, (NewClient net ctx action tokenVar).value = some (some c)) ∧
    logs (NewClient net ctx action tokenVar).trace
      = [.debug ("Rate limit remaining: " ++ toString rl.RateLimit.Remaining ++ ", reset at: "
          ++ rl.RateLimit.ResetAt.Format .RFC3339 ++ ".")] ∧
    debugs (NewClient net ctx action tokenVar).trace
      = ["Rate limit remaining: " ++ toString rl.RateLimit.Remaining ++ ", reset at: "
          ++ rl.RateLimit.ResetAt.Format .RFC3339 ++ "."] ∧
    fatals (NewClient net ctx action tokenVar).trace = [] ∧
    (rl.RateLimit.Remaining = 4999 → rl.RateLimit.ResetAt = { unix := 1705316400, offset := 0 } →
      logs (NewClient net ctx action tokenVar).trace
        = [.debug "Rate limit remaining: 4999, reset at: 2024-01-15T11:00:00Z."]) := by
  rw [run_ready net ctx action tokenVar rl h hok]
  refine ⟨rfl, ⟨_, rfl⟩, rfl, rfl, rfl, ?_⟩
  intro hr4999 ht
  rw [hr4999, ht]
  rfl

theorem NewClient_ready_witness :
    tokenAction.getenv "GITHUB_TOKEN" ≠ "" ∧
    okNet (probe background tokenAction (tokenAction.getenv "GITHUB_TOKEN"))
      = .ok { RateLimit := { Cost := 1, Limit := 5000, Remaining := 4999,
                             ResetAt := { unix := 1705316400, offset := 0 } } } ∧
    queries (NewClient okNet background tokenAction "GITHUB_TOKEN").trace
      = [probe background tokenAction "ghp_example123"] ∧
    (∃ c, (NewClient okNet background tokenAction "GITHUB_TOKEN").value = some (some c)) ∧
    logs (NewClient okNet background tokenAction "GITHUB_TOKEN").trace
      = [.debug "Rate limit remaining: 4999, reset at: 2024-01-15T11:00:00Z."] :=
  ⟨by decide, rfl,
    (NewClient_ready okNet background tokenAction "GITHUB_TOKEN" _ (by decide) rfl).1,
    (NewClient_ready okNet background tokenAction "GITHUB_TOKEN" _ (by decide) rfl).2.1,
    (NewClient_ready okNet background tokenAction "GITHUB_TOKEN" _ (by decide) rfl).2.2.1⟩

/-- C4: when the variable named `tokenVar` is unset or empty, the trace of the
run holds no query, whether the exit hook of the fatal log terminates the
process or returns; in the latter case the run goes on to return nil, still
without a query. -/
theorem NewClient_missing_token_no_query (net : Network) (ctx : Context) (action : Action)
    (tokenVar : String) (h : action.getenv tokenVar = "") :
    queries (NewClient net ctx action tokenVar).trace = [] ∧
    (∀ req, Effect.query req ∉ (NewClient net ctx action tokenVar).trace) ∧
    (action.exits = false → (NewClient net ctx action tokenVar).value = some none) := by
  rw [run_missing net ctx action tokenVar h]
  refine ⟨rfl, ?_, ?_⟩
  · intro req hmem
    simp at hmem
  · intro hx
    simp [hx]

theorem NewClient_missing_token_no_query_witness :
    stubbedAction.getenv "GITHUB_TOKEN" = "" ∧
    queries (NewClient okNet background stubbedAction "GITHUB_TOKEN").trace = [] ∧
    (∀ req, Effect.query req ∉ (NewClient okNet background stubbedAction "GITHUB_TOKEN").trace) ∧
    (stubbedAction.exits = false →
      (NewClient okNet background stubbedAction "GITHUB_TOKEN").value = some none) :=
  ⟨rfl, NewClient_missing_token_no_query okNet background stubbedAction "GITHUB_TOKEN" rfl⟩

/-- C5: with a non-empty token the run sends exactly one validation query,
whatever the remote end answers: a failed query is not sent again and a
successful one is not repeated. -/
theorem NewClient_one_query (net : Network) (ctx : Context) (action : Action)
    (tokenVar : String) (h : action.getenv tokenVar ≠ "") :
    (queries (NewClient net ctx action tokenVar).trace).length = 1 ∧
    ∃ req, queries (NewClient net ctx action tokenVar).trace = [req] := by
  rcases run_cases net ctx action tokenVar with ⟨h0, _⟩ | ⟨_, e, _, hr⟩ | ⟨_, rl, _, hr⟩
  · exact absurd h0 h
  · rw [hr]
    exact ⟨rfl, _, rfl⟩
  · rw [hr]
    exact ⟨rfl, _, rfl⟩

theorem NewClient_one_query_witness :
    tokenAction.getenv "GITHUB_TOKEN" ≠ "" ∧
    (queries (NewClient timeoutNet background tokenAction "GITHUB_TOKEN").trace).length = 1 ∧
    ∃ req, queries (NewClient timeoutNet background tokenAction "GITHUB_TOKEN").trace = [req] :=
  ⟨by decide, NewClient_one_query timeoutNet background tokenAction "GITHUB_TOKEN" (by decide)⟩

/-- C6: with a non-empty value `v` of the variable named `tokenVar`, the static
token source of the transport is seeded with exactly `v`; the one validation
query goes through a client on that transport (its `Authorization` header is
`Bearer ` followed by `v`), and a returned client holds the same transport. -/
theorem NewClient_token_verbatim (net : Network) (ctx : Context) (action : Action)
    (tokenVar : String) (h : action.getenv tokenVar ≠ "") :
    ∃ req, queries (NewClient net ctx action tokenVar).trace = [req] ∧
      req.client.httpClient.Transport.Source
        = StaticTokenSource { AccessToken := action.getenv tokenVar } ∧
      req.client.httpClient.Transport.Source.Token.AccessToken = action.getenv tokenVar ∧
      req.client.httpClient.Transport.Base = NewTransport action ∧
      req.authorization = "Bearer " ++ action.getenv tokenVar ∧
      ∀ c, (NewClient net ctx action tokenVar).value = some (some c) →
        c.Client.httpClient.Transport = req.client.httpClient.Transport := by
  rcases run_cases net ctx action tokenVar with ⟨h0, _⟩ | ⟨_, e, _, hr⟩ | ⟨_, rl, _, hr⟩
  · exact absurd h0 h
  · rw [hr]
    refine ⟨_, rfl, rfl, rfl, rfl, rfl, ?_⟩
    intro c hc
    exact absurd hc (no_client_of_exit action.exits c)
  · rw [hr]
    refine ⟨_, rfl, rfl, rfl, rfl, rfl, ?_⟩
    intro c hc
    have hcc : c = { Client := (probe ctx action (action.getenv tokenVar)).client,
                     action := action } := by
      simpa using hc.symm
    rw [hcc]

theorem NewClient_token_verbatim_witness :
    tokenAction.getenv "GITHUB_TOKEN" ≠ "" ∧
    ∃ req, queries (NewClient okNet background tokenAction "GITHUB_TOKEN").trace = [req] ∧
      req.client.httpClient.Transport.Source
        = StaticTokenSource { AccessToken := tokenAction.getenv "GITHUB_TOKEN" } ∧
      req.client.httpClient.Transport.Source.Token.AccessToken = "ghp_example123" ∧
      req.client.httpClient.Transport.Base = NewTransport tokenAction ∧
      req.authorization = "Bearer ghp_example123" ∧
      ∀ c, (NewClient okNet background tokenAction "GITHUB_TOKEN").value = some (some c) →
        c.Client.httpClient.Transport = req.client.httpClient.Transport :=
  ⟨by decide, NewClient_token_verbatim okNet background tokenAction "GITHUB_TOKEN" (by decide)⟩

/-- C7: a client returned by `NewClient` holds the executor that sent the one
validation query of the run and the Actions context that was passed in; a
client is returned only with a non-empty token and a successful query. -/
theorem NewClient_bundles (net : Network) (ctx : Context) (action : Action)
    (tokenVar : String) (c : Client)
    (hc : (NewClient net ctx action tokenVar).value = some (some c)) :
    c.action = action ∧
    action.getenv tokenVar ≠ "" ∧
    ∃ req, queries (NewClient net ctx action tokenVar).trace = [req] ∧
      c.Client = req.client ∧ ∃ rl, net req = .ok rl := by
  rcases run_cases net ctx action tokenVar with ⟨_, hr⟩ | ⟨_, e, _, hr⟩ | ⟨h1, rl, hk, hr⟩
  · rw [hr] at hc
    exact absurd hc (no_client_of_exit action.exits c)
  · rw [hr] at hc
    exact absurd hc (no_client_of_exit action.exits c)
  · rw [hr] at hc ⊢
    have hcc : c = { Client := (probe ctx action (action.getenv tokenVar)).client,
                     action := action } := by
      simpa using hc.symm
    subst hcc
    exact ⟨rfl, h1, _, rfl, rfl, rl, hk⟩

theorem NewClient_bundles_witness :
    (NewClient okNet background tokenAction "GITHUB_TOKEN").value
      = some (some { Client := (probe background tokenAction "ghp_example123").client,
                     action := tokenAction }) ∧
    (({ Client := (probe background tokenAction "ghp_example123").client,
        action := tokenAction } : Client).action = tokenAction ∧
    tokenAction.getenv "GITHUB_TOKEN" ≠ "" ∧
    ∃ req, queries (NewClient okNet background tokenAction "GITHUB_TOKEN").trace = [req] ∧
      ({ Client := (probe background tokenAction "ghp_example123").client,
         action := tokenAction } : Client).Client = req.client ∧ ∃ rl, okNet req = .ok rl) :=
  ⟨rfl, NewClient_bundles okNet background tokenAction "GITHUB_TOKEN" _ rfl⟩

/-- C8: on every path the run looks up exactly one environment variable, the
one named `tokenVar`, exactly once. -/
theorem NewClient_reads_only_tokenVar (net : Network) (ctx : Context) (action : Action)
    (tokenVar : String) :
    getenvs (NewClient net ctx action tokenVar).trace = [tokenVar] := by
  rcases run_cases net ctx action tokenVar with ⟨_, hr⟩ | ⟨_, e, _, hr⟩ | ⟨_, rl, _, hr⟩ <;>
    rw [hr] <;> rfl

/-- C9: in every run, a fatal log entry is the last effect: whenever the trace
splits as `pre`, a fatal entry, `post`, then `post` is empty and `pre` holds
neither a fatal nor a debug entry; the fatal entry is the last element of the
trace and the only fatal one, and no client is returned. -/
theorem NewClient_fatal_is_last (net : Network) (ctx : Context) (action : Action)
    (tokenVar : String) (pre post : List Effect) (msg : String)
    (hsplit : (NewClient net ctx action tokenVar).trace = pre ++ .fatal msg :: post) :
    post = [] ∧ logs pre = [] ∧
    (NewClient net ctx action tokenVar).trace.getLast? = some (.fatal msg) ∧
    fatals (NewClient net ctx action tokenVar).trace = [msg] ∧
    debugs (NewClient net ctx action tokenVar).trace = [] ∧
    ∀ c, (NewClient net ctx action tokenVar).value ≠ some (some c) := by
  rcases run_cases net ctx action tokenVar with ⟨_, hr⟩ | ⟨_, e, _, hr⟩ | ⟨_, rl, _, hr⟩
  · rw [hr] at hsplit ⊢
    match pre, hsplit with
    | [], hs => simp at hs
    | [_], hs =>
      simp at hs
      obtain ⟨rfl, rfl, rfl⟩ := hs
      exact ⟨rfl, rfl, rfl, rfl, rfl, no_client_of_exit action.exits⟩
    | _ :: _ :: [], hs => simp at hs
    | _ :: _ :: _ :: _, hs => simp at hs
  · rw [hr] at hsplit ⊢
    match pre, hsplit with
    | [], hs => simp at hs
    | [_], hs => simp at hs
    | [_, _], hs =>
      simp at hs
      obtain ⟨rfl, rfl, rfl, rfl⟩ := hs
      exact ⟨rfl, rfl, rfl, rfl, rfl, no_client_of_exit action.exits⟩
    | _ :: _ :: _ :: [], hs => simp at hs
    | _ :: _ :: _ :: _ :: _, hs => simp at hs
  · rw [hr] at hsplit
    match pre, hsplit with
    | [], hs => simp at hs
    | [_], hs => simp at hs
    | [_, _], hs => simp at hs
    | _ :: _ :: _ :: [], hs => simp at hs
    | _ :: _ :: _ :: _ :: _, hs => simp at hs

theorem NewClient_fatal_is_last_witness :
    (NewClient timeoutNet background tokenAction "GITHUB_TOKEN").trace
      = [.getenv "GITHUB_TOKEN", .query (probe background tokenAction "ghp_example123")]
        ++ .fatal "Failed to query rate limit: context deadline exceeded." :: [] ∧
    (([] : List Effect) = [] ∧
    logs [.getenv "GITHUB_TOKEN", .query (probe background tokenAction "ghp_example123")] = [] ∧
    (NewClient timeoutNet background tokenAction "GITHUB_TOKEN").trace.getLast?
      = some (.fatal "Failed to query rate limit: context deadline exceeded.") ∧
    fatals (NewClient timeoutNet background tokenAction "GITHUB_TOKEN").trace
      = ["Failed to query rate limit: context deadline exceeded."] ∧
    debugs (NewClient timeoutNet background tokenAction "GITHUB_TOKEN").trace = [] ∧
    ∀ c, (NewClient timeoutNet background tokenAction "GITHUB_TOKEN").value ≠ some (some c)) :=
  ⟨rfl, NewClient_fatal_is_last timeoutNet background tokenAction "GITHUB_TOKEN"
    [.getenv "GITHUB_TOKEN", .query (probe background tokenAction "ghp_example123")] []
    "Failed to query rate limit: context deadline exceeded." rfl⟩

/-- C10: the validation query is fixed: whatever the token and the name of the
variable, every request of the run carries the query text
`{rateLimit{cost,limit,remaining,resetAt}}`, rendered from the four fields
`Cost`, `Limit`, `Remaining`, `ResetAt` of `rl.RateLimit`, and no variables;
there is one such request when the token is not empty and none otherwise. -/
theorem NewClient_query_fixed (net : Network) (ctx : Context) (action : Action)
    (tokenVar : String) :
    (queries (NewClient net ctx action tokenVar).trace).map (fun req => (req.query, req.vars))
      = (if action.getenv tokenVar = "" then []
         else [("\x7brateLimit\x7bcost,limit,remaining,resetAt\x7d\x7d", none)]) := by
  rcases run_cases net ctx action tokenVar with ⟨h0, hr⟩ | ⟨h1, e, _, hr⟩ | ⟨h1, rl, _, hr⟩
  · rw [hr, if_pos h0]
    rfl
  · rw [hr, if_neg h1]
    rfl
  · rw [hr, if_neg h1]
    rfl

end graphql
